import Mathlib

/-!
Verification of the Directional Dead-Reckoning Engine of the PipeScanner
web application: the point/segment route model (PointManager), the path
reconstruction (pointsToPositions in utils/math.js), the complementary
sensor-fusion filter (SensorManager), and the AR anchor-direction
derivation with its one-time compass offset (WebXRManager).  Numbers are
embedded as real numbers; JavaScript null is embedded as Option.
-/

noncomputable section

namespace PipeScan

/-! ## JavaScript numeric and value primitives

JavaScript's remainder operator rounds the quotient toward zero, so we
first embed truncation and then the remainder.  The truthiness defaults
used in the source code (x || 0, s || null and friends) are embedded as
explicit conditionals on the falsy values of the respective type. -/

/-- Truncation toward zero, as used by the JavaScript % operator. -/
def jsTrunc (x : ℝ) : ℤ := if 0 ≤ x then ⌊x⌋ else ⌈x⌉

/-- JavaScript remainder a % b (sign follows the dividend). -/
def jsMod (a b : ℝ) : ℝ := a - b * jsTrunc (a / b)

/-- JavaScript x || 0 on a number (0 is falsy). -/
def jsOrZero (x : ℝ) : ℝ := if x = 0 then 0 else x

/-- JavaScript s || d on strings (the empty string is falsy). -/
def jsOrString (s d : String) : String := if s = "" then d else s

/-- JavaScript x || null on a nullable string. -/
def jsOrNoneStr : Option String → Option String
  | none => none
  | some s => if s = "" then none else some s

/-- JavaScript x || null on a nullable number (0 becomes null). -/
def jsOrNoneReal : Option ℝ → Option ℝ
  | none => none
  | some v => if v = 0 then none else some v

/-- In-place update of the element at an index, a no-op out of range
(embeds a JavaScript assignment this.points[i].field = v). -/
def listModify (l : List α) (i : ℕ) (f : α → α) : List α :=
  match l[i]? with
  | none => l
  | some a => l.set i (f a)

/-- Mutation of the first matching element of a list (embeds mutating the
object returned by Array.prototype.find). -/
def updateFirst (p : α → Bool) (f : α → α) : List α → List α
  | [] => []
  | a :: as => if p a then f a :: as else a :: updateFirst p f as

/-! ## utils/math.js -/

/-- Function pixelDistance of utils/math.js: 2D Euclidean distance between
two screen points in pixels. -/
def pixelDistance (x1 y1 x2 y2 : ℝ) : ℝ :=
  Real.sqrt ((x2 - x1) ^ 2 + (y2 - y1) ^ 2)

/-- A 3D position produced by the path reconstruction. -/
structure Vec3 where
  x : ℝ
  y : ℝ
  z : ℝ

/-- The fields of a point that pointsToPositions reads. -/
structure RPoint where
  screenX : ℝ
  screenY : ℝ
  distanceToNext : Option ℝ
  heading : Option ℝ
  elevation : Option ℝ

/-- One loop iteration of pointsToPositions: advances the running position
from point p1 toward point p2 (utils/math.js lines 68-93). -/
def segStep (p1 p2 : RPoint) (pos : Vec3) : Vec3 :=
  let d : ℝ := p1.distanceToNext.getD 1
  match p1.heading with
  | some h =>
      let hRad := h * (Real.pi / 180)
      let eRad := (p1.elevation.getD 0) * (Real.pi / 180)
      let horiz := d * Real.cos eRad
      ⟨pos.x + horiz * Real.sin hRad, pos.y + d * Real.sin eRad,
        pos.z + horiz * Real.cos hRad⟩
  | none =>
      let dx := p2.screenX - p1.screenX
      let dy := p2.screenY - p1.screenY
      let screenDist := Real.sqrt (dx * dx + dy * dy)
      if 1 < screenDist then
        ⟨pos.x + dx / screenDist * d, pos.y, pos.z + dy / screenDist * d⟩
      else
        ⟨pos.x + d, pos.y, pos.z⟩

/-- Loop of pointsToPositions: pushes the running position for every
point, advancing it between consecutive points. -/
def ptpAux (pos : Vec3) : List RPoint → List Vec3
  | [] => []
  | [_] => [pos]
  | p1 :: p2 :: rest => pos :: ptpAux (segStep p1 p2 pos) (p2 :: rest)

/-- Function pointsToPositions of utils/math.js: converts the point
sequence to 3D positions, starting at the origin. -/
def pointsToPositions (points : List RPoint) : List Vec3 :=
  ptpAux ⟨0, 0, 0⟩ points

/-! ## modules/SensorManager.js -/

/-- Constant this._filterAlpha of SensorManager: gyro short-term trust. -/
def filterAlpha : ℝ := 0.96

/-- Method _fuse of SensorManager: complementary-filter fusion of a
compass heading with the gyro-tracked heading (lines 146-149). -/
def fuse (compass gyro : ℝ) : ℝ :=
  let diff := jsMod (gyro - compass + 540) 360 - 180
  jsMod (compass + filterAlpha * diff + 360) 360

/-- The part of SensorManager state that _applyCompass touches. -/
structure FusionState where
  heading : Option ℝ
  gyroHeading : Option ℝ
  hasGyro : Bool

/-- Method _applyCompass of SensorManager (lines 134-143): fuses when a
gyro-tracked heading exists and the gyro was detected, otherwise adopts
the compass heading directly; re-syncs the gyro-tracked heading. -/
def applyCompass (compassHeading : ℝ) (s : FusionState) : FusionState :=
  let newHeading : ℝ :=
    match s.gyroHeading, s.hasGyro with
    | some g, true => fuse compassHeading g
    | _, _ => compassHeading
  { s with heading := some newHeading, gyroHeading := some newHeading }

/-! ## modules/WebXRManager.js -/

/-- JavaScript Math.atan2 (y, x), embedded through the complex argument,
giving the angle in (-pi, pi]. -/
def atan2 (y x : ℝ) : ℝ := Complex.arg ⟨x, y⟩

/-- Method _captureCompassHeading of WebXRManager (lines 278-306): the
bounded wait either delivers the first compass event heading or times
out, in which case the offset defaults to 0.  The input models whether a
compass reading arrived within the timeout. -/
def captureCompassHeading (reading : Option ℝ) : ℝ :=
  match reading with
  | some h => h
  | none => 0

/-- The output of getAnchorDirection: heading and elevation only - the
method returns no provenance or source tag (lines 258-272). -/
structure AnchorDir where
  heading : ℝ
  elevation : ℝ

/-- Method getAnchorDirection of WebXRManager (lines 258-272), with the
anchor mesh positions as the position list and the captured compass
offset as a parameter. -/
def getAnchorDirection (compassOffset : ℝ) (anchors : List Vec3) (i : ℤ) :
    Option AnchorDir :=
  if i < 0 ∨ (anchors.length : ℤ) - 1 ≤ i then none
  else
    match anchors[i.toNat]?, anchors[i.toNat + 1]? with
    | some p1, some p2 =>
        let dx := p2.x - p1.x
        let dy := p2.y - p1.y
        let dz := p2.z - p1.z
        let horiz := Real.sqrt (dx * dx + dz * dz)
        let heading0 := atan2 dx dz * (180 / Real.pi)
        let h1 := jsMod (heading0 + compassOffset) 360
        let h2 := if h1 < 0 then h1 + 360 else h1
        some ⟨h2, atan2 dy horiz * (180 / Real.pi)⟩
    | _, _ => none

/-! ## config.js and utils/validation.js -/

/-- Constant MAX_POINTS of config.js. -/
def MAX_POINTS : ℕ := 100

/-- Constant MEMO_MAX_LENGTH of config.js. -/
def MEMO_MAX_LENGTH : ℕ := 50

/-- Function validateMemo of utils/validation.js, returning the error
message when invalid (the typeof check is subsumed by typing). -/
def validateMemo (memo : String) : Option String :=
  if MEMO_MAX_LENGTH < memo.length then
    some "メモは50文字以内で入力してください"
  else none

/-- Function validatePointCount of utils/validation.js. -/
def validatePointCount (currentCount : ℕ) : Option String :=
  if MAX_POINTS ≤ currentCount then
    some "ポイントは最大100個までです"
  else none

/-- Function validateDistance of utils/validation.js (the isNaN branch is
vacuous over the reals). -/
def validateDistance (value : ℝ) : Option String :=
  if value < 0 then some "距離は0以上で入力してください"
  else if 1000 < value then some "距離が大きすぎます（最大1000m）"
  else none

/-! ## modules/PointManager.js -/

/-- A feature point as created by PointManager.addPoint. -/
structure Point where
  id : ℕ
  screenX : ℝ
  screenY : ℝ
  memo : String
  createdAt : String
  distanceToNext : Option ℝ
  heading : Option ℝ
  elevation : Option ℝ
  directionSource : Option String
  sensorLevel : Option ℕ

/-- The calibration record of PointManager. -/
structure Calibration where
  pixelsPerMeter : Option ℝ
  referenceSegment : Option ℤ

/-- The state of a PointManager instance. -/
structure PMState where
  points : List Point
  nextId : ℕ
  calibration : Calibration

/-- The state of a freshly constructed PointManager. -/
def initState : PMState :=
  { points := [], nextId := 1, calibration := ⟨none, none⟩ }

/-- The outcome of a mutating PointManager operation: the success flag
and error message of the returned result object, the state after the
call, and whether _notify ran (listeners were invoked). -/
structure OpResult where
  success : Bool
  error : Option String
  state : PMState
  notified : Bool

/-- Method addPoint of PointManager (lines 38-65); the creation timestamp
is the impure new Date().toISOString() read, passed in as now. -/
def addPoint (screenX screenY : ℝ) (memo : String) (now : String)
    (s : PMState) : OpResult :=
  match validatePointCount s.points.length with
  | some e => ⟨false, some e, s, false⟩
  | none =>
    match validateMemo memo with
    | some e => ⟨false, some e, s, false⟩
    | none =>
        let point : Point :=
          { id := s.nextId, screenX := screenX, screenY := screenY,
            memo := memo.trim, createdAt := now, distanceToNext := none,
            heading := none, elevation := none, directionSource := none,
            sensorLevel := none }
        ⟨true, none,
          { s with points := s.points ++ [point], nextId := s.nextId + 1 },
          true⟩

/-- Method setSegmentDistance of PointManager (lines 73-84). -/
def setSegmentDistance (index : ℤ) (distance : Option ℝ) (s : PMState) :
    OpResult :=
  if index < 0 ∨ (s.points.length : ℤ) - 1 ≤ index then
    ⟨false, some "無効な区間です", s, false⟩
  else
    match distance with
    | some d =>
      match validateDistance d with
      | some e => ⟨false, some e, s, false⟩
      | none =>
          let pts := listModify s.points index.toNat
            (fun p => { p with distanceToNext := some d })
          ⟨true, none, { s with points := pts }, true⟩
    | none =>
        let pts := listModify s.points index.toNat
          (fun p => { p with distanceToNext := none })
        ⟨true, none, { s with points := pts }, true⟩

/-- Method setPointDirection of PointManager (lines 95-106). -/
def setPointDirection (index : ℤ) (heading elevation : Option ℝ)
    (source : Option String) (level : Option ℕ) (s : PMState) : OpResult :=
  if index < 0 ∨ (s.points.length : ℤ) ≤ index then
    ⟨false, some "無効なインデックス", s, false⟩
  else
    let pts := listModify s.points index.toNat
      (fun p => { p with heading := heading, elevation := elevation,
                         directionSource := source, sensorLevel := level })
    ⟨true, none, { s with points := pts }, true⟩

/-- Method updateMemo of PointManager (lines 113-121). -/
def updateMemo (id : ℕ) (memo : String) (s : PMState) : OpResult :=
  match s.points.find? (fun p => p.id == id) with
  | none => ⟨false, some "点が見つかりません", s, false⟩
  | some _ =>
    match validateMemo memo with
    | some e => ⟨false, some e, s, false⟩
    | none =>
        let pts := updateFirst (fun p => p.id == id)
          (fun p => { p with memo := memo.trim }) s.points
        ⟨true, none, { s with points := pts }, true⟩

/-- The data argument of updatePointByIndex: an outer none embeds a field
that is undefined (absent), an outer some embeds a supplied value. -/
structure UpdateData where
  memo : Option String
  distance : Option (Option ℝ)
  heading : Option (Option ℝ)
  elevation : Option (Option ℝ)
  directionSource : Option (Option String)

/-- The field assignments of updatePointByIndex applied to one point;
the assignments of the source are sequential but touch disjoint fields,
so they are embedded as one simultaneous update.  allowDistance embeds
the non-terminal-index guard on the distance write. -/
def applyUpdate (data : UpdateData) (allowDistance : Bool) (p : Point) :
    Point :=
  { p with
    memo := match data.memo with
      | some m => m.trim
      | none => p.memo,
    distanceToNext := match data.distance with
      | some d => if allowDistance then d else p.distanceToNext
      | none => p.distanceToNext,
    heading := match data.heading with
      | some h => h
      | none => p.heading,
    elevation := match data.elevation with
      | some e => e
      | none => p.elevation,
    directionSource := match data.directionSource with
      | some src => src
      | none => p.directionSource }

/-- Method updatePointByIndex of PointManager (lines 128-140). -/
def updatePointByIndex (index : ℤ) (data : UpdateData) (s : PMState) :
    OpResult :=
  if index < 0 ∨ (s.points.length : ℤ) ≤ index then
    ⟨false, none, s, false⟩
  else
    let pts := listModify s.points index.toNat
      (applyUpdate data (decide (index < (s.points.length : ℤ) - 1)))
    ⟨true, none, { s with points := pts }, true⟩

/-- Method undoLastPoint of PointManager (lines 146-155): clears the
predecessor's distanceToNext, then removes the last point. -/
def undoLastPoint (s : PMState) : OpResult :=
  if s.points.length = 0 then ⟨false, none, s, false⟩
  else
    let pts :=
      if 2 ≤ s.points.length then
        listModify s.points (s.points.length - 2)
          (fun p => { p with distanceToNext := none })
      else s.points
    ⟨true, none, { s with points := pts.dropLast }, true⟩

/-- Method removePoint of PointManager (lines 161-172). -/
def removePoint (id : ℕ) (s : PMState) : OpResult :=
  match s.points.findIdx? (fun p => p.id == id) with
  | none => ⟨false, some "点が見つかりません", s, false⟩
  | some index =>
      let pts := s.points.eraseIdx index
      let pts :=
        if 0 < index ∧ index ≤ pts.length then
          listModify pts (index - 1)
            (fun p => { p with distanceToNext := none })
        else pts
      ⟨true, none, { s with points := pts }, true⟩

/-- Method estimateDistance of PointManager (lines 179-186): the guard
!pixelsPerMeter treats both null and 0 as uncalibrated. -/
def estimateDistance (index : ℤ) (s : PMState) : Option ℝ :=
  match s.calibration.pixelsPerMeter with
  | none => none
  | some ppm =>
      if ppm = 0 then none
      else if index < 0 ∨ (s.points.length : ℤ) - 1 ≤ index then none
      else
        match s.points[index.toNat]?, s.points[index.toNat + 1]? with
        | some p1, some p2 =>
            some (pixelDistance p1.screenX p1.screenY p2.screenX p2.screenY
                    / ppm)
        | _, _ => none

/-- Method calibrate of PointManager (lines 193-203): silent no-op on an
invalid segment index or a non-positive real distance, otherwise replaces
the whole calibration record. -/
def calibrate (segmentIndex : ℤ) (realDistance : ℝ) (s : PMState) :
    PMState :=
  if segmentIndex < 0 ∨ (s.points.length : ℤ) - 1 ≤ segmentIndex then s
  else if realDistance ≤ 0 then s
  else
    match s.points[segmentIndex.toNat]?, s.points[segmentIndex.toNat + 1]? with
    | some p1, some p2 =>
        { s with calibration :=
            ⟨some (pixelDistance p1.screenX p1.screenY p2.screenX p2.screenY
                     / realDistance),
             some segmentIndex⟩ }
    | _, _ => s

/-- Method getTotalLength of PointManager (lines 211-217). -/
def getTotalLength (s : PMState) : ℝ :=
  s.points.foldl (fun total p => total + p.distanceToNext.getD 0) 0

/-- Method loadPoints of PointManager (lines 228-250): bulk replace with
null-safe defaults, recomputed next id, and optional calibration; now is
the impure timestamp read used for a missing createdAt. -/
def loadPoints (points : List Point) (calibration : Option Calibration)
    (now : String) (s : PMState) : PMState :=
  let pts := points.map (fun p =>
    ({ id := p.id, screenX := jsOrZero p.screenX,
       screenY := jsOrZero p.screenY, memo := jsOrString p.memo "",
       createdAt := jsOrString p.createdAt now,
       distanceToNext := p.distanceToNext, heading := p.heading,
       elevation := p.elevation,
       directionSource := jsOrNoneStr p.directionSource,
       sensorLevel := p.sensorLevel } : Point))
  let maxId := pts.foldl (fun m p => max m p.id) 0
  let cal := match calibration with
    | none => s.calibration
    | some c => ⟨jsOrNoneReal c.pixelsPerMeter, c.referenceSegment⟩
  { points := pts, nextId := maxId + 1, calibration := cal }

/-- Method clear of PointManager (lines 252-257). -/
def clearAll (_s : PMState) : PMState := initState

/-! ## Reachable states

ProjectStorage.save (lines 21-43) serializes the live points array and
the calibration record unchanged (JSON keeps numbers, strings and nulls),
so reloading a saved project is loadPoints s.points (some s.calibration).
A state is reachable when it arises from the fresh-constructor state by
the public PointManager operations.  The side conditions embed the two
facts about the impure environment: new Date().toISOString() is never
the empty string, and direction sources are drawn from the documented
set (fusion, compass, gyro, accel, manual or null - never the empty
string, PointManager.js line 58). -/

inductive Reachable : PMState → Prop
  | init : Reachable initState
  | addPoint (s : PMState) (x y : ℝ) (memo now : String) :
      Reachable s → now ≠ "" → Reachable (addPoint x y memo now s).state
  | setSegmentDistance (s : PMState) (i : ℤ) (d : Option ℝ) :
      Reachable s → Reachable (setSegmentDistance i d s).state
  | setPointDirection (s : PMState) (i : ℤ) (h e : Option ℝ)
      (src : Option String) (lvl : Option ℕ) :
      Reachable s → src ≠ some "" →
      Reachable (setPointDirection i h e src lvl s).state
  | updateMemo (s : PMState) (id : ℕ) (memo : String) :
      Reachable s → Reachable (updateMemo id memo s).state
  | updatePointByIndex (s : PMState) (i : ℤ) (data : UpdateData) :
      Reachable s → data.directionSource ≠ some (some "") →
      Reachable (updatePointByIndex i data s).state
  | undoLastPoint (s : PMState) :
      Reachable s → Reachable (undoLastPoint s).state
  | removePoint (s : PMState) (id : ℕ) :
      Reachable s → Reachable (removePoint id s).state
  | calibrate (s : PMState) (i : ℤ) (d : ℝ) :
      Reachable s → Reachable (calibrate i d s)
  | clearAll (s : PMState) :
      Reachable s → Reachable (clearAll s)
  | load (s t : PMState) (now : String) :
      Reachable s → Reachable t → now ≠ "" →
      Reachable (loadPoints s.points (some s.calibration) now t)

/-- The state invariant maintained by every reachable state: creation
timestamps are nonempty, direction sources are never the empty string,
and a non-null pixelsPerMeter is nonnegative. -/
def WF (s : PMState) : Prop :=
  (∀ p ∈ s.points, p.createdAt ≠ "" ∧ p.directionSource ≠ some "") ∧
  (∀ v : ℝ, s.calibration.pixelsPerMeter = some v → 0 ≤ v)

lemma listModify_subset {l : List α} {i : ℕ} {f : α → α} {a : α}
    (ha : a ∈ listModify l i f) : a ∈ l ∨ ∃ b ∈ l, a = f b := by
  unfold listModify at ha
  cases hl : l[i]? with
  | none => rw [hl] at ha; exact Or.inl ha
  | some b =>
      rw [hl] at ha
      rcases List.mem_or_eq_of_mem_set ha with h | h
      · exact Or.inl h
      · exact Or.inr ⟨b, List.getElem?_mem hl, h⟩

lemma updateFirst_subset {p : α → Bool} {f : α → α} {a : α} :
    ∀ {l : List α}, a ∈ updateFirst p f l → a ∈ l ∨ ∃ b ∈ l, a = f b := by
  intro l
  induction l with
  | nil => intro h; exact Or.inl h
  | cons b bs ih =>
      intro h
      unfold updateFirst at h
      by_cases hb : p b
      · rw [if_pos hb] at h
        rcases List.mem_cons.mp h with h | h
        · exact Or.inr ⟨b, List.mem_cons_self b bs, h⟩
        · exact Or.inl (List.mem_cons_of_mem b h)
      · rw [if_neg hb] at h
        rcases List.mem_cons.mp h with h | h
        · exact Or.inl (h ▸ List.mem_cons_self b bs)
        · rcases ih h with h | ⟨c, hc, hac⟩
          · exact Or.inl (List.mem_cons_of_mem b h)
          · exact Or.inr ⟨c, List.mem_cons_of_mem b hc, hac⟩

/-- Every reachable state satisfies the invariant. -/
theorem reachable_wf {s : PMState} (hs : Reachable s) : WF s := by
  induction hs with
  | init =>
      exact ⟨fun p hp => absurd hp (List.not_mem_nil p), fun v hv => by
        simp [initState] at hv⟩
  | addPoint s x y memo now hr hnow ih =>
      unfold addPoint
      cases hc : validatePointCount s.points.length with
      | some e => simpa [hc] using ih
      | none =>
        cases hm : validateMemo memo with
        | some e => simpa [hc, hm] using ih
        | none =>
            refine ⟨fun p hp => ?_, by simpa [hc, hm] using ih.2⟩
            simp only [hc, hm] at hp
            rcases List.mem_append.mp hp with h | h
            · exact ih.1 p h
            · rcases List.mem_singleton.mp h with rfl
              exact ⟨hnow, by simp⟩
  | setSegmentDistance s i d hr ih =>
      unfold setSegmentDistance
      split
      · exact ih
      · split
        · split
          · exact ih
          · refine ⟨fun p hp => ?_, ih.2⟩
            simp only at hp
            rcases listModify_subset hp with h | ⟨b, hb, rfl⟩
            · exact ih.1 p h
            · exact ⟨(ih.1 b hb).1, (ih.1 b hb).2⟩
        · refine ⟨fun p hp => ?_, ih.2⟩
          simp only at hp
          rcases listModify_subset hp with h | ⟨b, hb, rfl⟩
          · exact ih.1 p h
          · exact ⟨(ih.1 b hb).1, (ih.1 b hb).2⟩
  | setPointDirection s i h e src lvl hr hsrc ih =>
      unfold setPointDirection
      split
      · exact ih
      · refine ⟨fun p hp => ?_, ih.2⟩
        simp only at hp
        rcases listModify_subset hp with hm | ⟨b, hb, rfl⟩
        · exact ih.1 p hm
        · exact ⟨(ih.1 b hb).1, hsrc⟩
  | updateMemo s id memo hr ih =>
      unfold updateMemo
      cases s.points.find? (fun p => p.id == id) with
      | none => exact ih
      | some q =>
        cases validateMemo memo with
        | some e => exact ih
        | none =>
            refine ⟨fun p hp => ?_, ih.2⟩
            simp only at hp
            rcases updateFirst_subset hp with h | ⟨b, hb, rfl⟩
            · exact ih.1 p h
            · exact ⟨(ih.1 b hb).1, (ih.1 b hb).2⟩
  | updatePointByIndex s i data hr hdata ih =>
      unfold updatePointByIndex
      split
      · exact ih
      · refine ⟨fun p hp => ?_, ih.2⟩
        simp only at hp
        rcases listModify_subset hp with h | ⟨b, hb, rfl⟩
        · exact ih.1 p h
        · refine ⟨(ih.1 b hb).1, ?_⟩
          show (applyUpdate data _ b).directionSource ≠ some ""
          unfold applyUpdate
          cases hds : data.directionSource with
          | none => exact (ih.1 b hb).2
          | some src =>
              simp only
              intro hc
              exact hdata (by rw [hds, hc])
  | undoLastPoint s hr ih =>
      unfold undoLastPoint
      split
      · exact ih
      · refine ⟨fun p hp => ?_, ih.2⟩
        simp only at hp
        have hp2 := List.dropLast_subset _ hp
        split at hp2
        · rcases listModify_subset hp2 with h | ⟨b, hb, rfl⟩
          · exact ih.1 p h
          · exact ⟨(ih.1 b hb).1, (ih.1 b hb).2⟩
        · exact ih.1 p hp2
  | removePoint s id hr ih =>
      unfold removePoint
      cases s.points.findIdx? (fun p => p.id == id) with
      | none => exact ih
      | some idx =>
          refine ⟨fun p hp => ?_, ih.2⟩
          simp only at hp
          split at hp
          · rcases listModify_subset hp with h | ⟨b, hb, rfl⟩
            · exact ih.1 p (s.points.eraseIdx_subset idx h)
            · have := ih.1 b (s.points.eraseIdx_subset idx hb)
              exact ⟨this.1, this.2⟩
          · exact ih.1 p (s.points.eraseIdx_subset idx hp)
  | calibrate s i d hr ih =>
      unfold calibrate
      split
      · exact ih
      · split
        · exact ih
        · cases h1 : s.points[i.toNat]? with
          | none => simpa [h1] using ih
          | some p1 =>
            cases h2 : s.points[i.toNat + 1]? with
            | none => simpa [h1, h2] using ih
            | some p2 =>
                refine ⟨fun p hp => ih.1 p (by simpa [h1, h2] using hp),
                  fun v hv => ?_⟩
                simp only [h1, h2, Option.some.injEq] at hv
                rw [← hv]
                have hd : (0 : ℝ) < d := lt_of_not_le (by assumption)
                exact div_nonneg (Real.sqrt_nonneg _) (le_of_lt hd)
  | clearAll s hr ih =>
      exact ⟨fun p hp => absurd hp (List.not_mem_nil p), fun v hv => by
        simp [clearAll, initState] at hv⟩
  | load s t now hrs hrt hnow ihs iht =>
      constructor
      · intro p hp
        simp only [loadPoints, List.mem_map] at hp
        obtain ⟨q, hq, rfl⟩ := hp
        refine ⟨?_, ?_⟩
        · show jsOrString q.createdAt now ≠ ""
          unfold jsOrString
          split
          · exact hnow
          · exact (ihs.1 q hq).1
        · show jsOrNoneStr q.directionSource ≠ some ""
          unfold jsOrNoneStr
          cases q.directionSource with
          | none => simp
          | some src =>
              simp only
              split
              · simp
              · rename_i hns
                intro hc
                injection hc with hc2
                exact hns hc2
      · intro v hv
        have hv2 : jsOrNoneReal s.calibration.pixelsPerMeter = some v := hv
        cases hppm : s.calibration.pixelsPerMeter with
        | none => rw [hppm] at hv2; simp [jsOrNoneReal] at hv2
        | some w =>
            rw [hppm] at hv2
            simp only [jsOrNoneReal] at hv2
            split at hv2
            · simp at hv2
            · injection hv2 with hw
              exact hw ▸ ihs.2 w hppm

/-! ## Arithmetic facts about the JavaScript remainder -/

lemma jsMod_eq_fract {a b : ℝ} (hb : 0 < b) (ha : 0 ≤ a) :
    jsMod a b = b * Int.fract (a / b) := by
  unfold jsMod jsTrunc
  rw [if_pos (div_nonneg ha hb.le), Int.fract]
  have hbne : b ≠ 0 := ne_of_gt hb
  field_simp

lemma jsMod_nonneg {a b : ℝ} (hb : 0 < b) (ha : 0 ≤ a) : 0 ≤ jsMod a b := by
  rw [jsMod_eq_fract hb ha]
  exact mul_nonneg hb.le (Int.fract_nonneg _)

lemma jsMod_lt {a b : ℝ} (hb : 0 < b) (ha : 0 ≤ a) : jsMod a b < b := by
  rw [jsMod_eq_fract hb ha]
  calc b * Int.fract (a / b) < b * 1 :=
        (mul_lt_mul_left hb).mpr (Int.fract_lt_one _)
    _ = b := mul_one b

lemma jsMod_eq_sub {a b : ℝ} (k : ℤ) (hb : 0 < b) (hk : 0 ≤ k)
    (h1 : (k : ℝ) * b ≤ a) (h2 : a < ((k : ℝ) + 1) * b) :
    jsMod a b = a - k * b := by
  have ha : 0 ≤ a :=
    le_trans (mul_nonneg (by exact_mod_cast hk) hb.le) h1
  have hfloor : ⌊a / b⌋ = k := by
    rw [Int.floor_eq_iff]
    constructor
    · rw [le_div_iff₀ hb]; exact h1
    · rw [div_lt_iff₀ hb]; exact_mod_cast h2
  unfold jsMod jsTrunc
  rw [if_pos (div_nonneg ha hb.le), hfloor]
  ring

/-! ## Structure of the reconstructed position list -/

lemma ptpAux_head (pos : Vec3) (p : RPoint) (rest : List RPoint) :
    (ptpAux pos (p :: rest))[0]? = some pos := by
  cases rest <;> simp [ptpAux]

lemma ptpAux_step :
    ∀ (ps : List RPoint) (pos : Vec3) (i : ℕ) (p q : RPoint),
      ps[i]? = some p → ps[i + 1]? = some q →
      ∃ v, (ptpAux pos ps)[i]? = some v ∧
        (ptpAux pos ps)[i + 1]? = some (segStep p q v)
  | [], _, i, _, _, hp, _ => by simp at hp
  | [a], _, i, _, _, _, hq => by
      rcases i with _ | j <;> simp at hq
  | p1 :: p2 :: rest, pos, 0, p, q, hp, hq => by
      simp only [List.getElem?_cons_zero, Option.some.injEq] at hp
      simp only [List.getElem?_cons_succ, List.getElem?_cons_zero,
        Option.some.injEq] at hq
      subst hp; subst hq
      have hrw : ptpAux pos (p1 :: p2 :: rest)
          = pos :: ptpAux (segStep p1 p2 pos) (p2 :: rest) := by
        simp [ptpAux]
      refine ⟨pos, ?_, ?_⟩
      · exact ptpAux_head pos p1 (p2 :: rest)
      · rw [hrw, List.getElem?_cons_succ]
        exact ptpAux_head (segStep p1 p2 pos) p2 rest
  | p1 :: p2 :: rest, pos, Nat.succ j, p, q, hp, hq => by
      rw [List.getElem?_cons_succ] at hp hq
      obtain ⟨v, h1, h2⟩ :=
        ptpAux_step (p2 :: rest) (segStep p1 p2 pos) j p q hp hq
      have hrw : ptpAux pos (p1 :: p2 :: rest)
          = pos :: ptpAux (segStep p1 p2 pos) (p2 :: rest) := by
        simp [ptpAux]
      refine ⟨v, ?_, ?_⟩
      · rw [hrw, List.getElem?_cons_succ]
        exact h1
      · rw [hrw, List.getElem?_cons_succ]
        exact h2

lemma pointsToPositions_head (p : RPoint) (rest : List RPoint) :
    (pointsToPositions (p :: rest))[0]? = some ⟨0, 0, 0⟩ :=
  ptpAux_head ⟨0, 0, 0⟩ p rest

/-- C1: for every point sequence, pointsToPositions places point 0 at
the origin, and whenever point i carries a non-null heading h and a
measured distance d, position i+1 differs from position i by
(d cos e sin h, d sin e, d cos e cos h) after degree-to-radian
conversion, where e is point i's elevation treated as 0 when null. -/
theorem claimC1 (ps : List RPoint) (i : ℕ) (p q : RPoint) (h d : ℝ)
    (hp : ps[i]? = some p) (hq : ps[i + 1]? = some q)
    (hh : p.heading = some h) (hd : p.distanceToNext = some d) :
    (pointsToPositions ps)[0]? = some ⟨0, 0, 0⟩ ∧
    ∃ v w, (pointsToPositions ps)[i]? = some v ∧
      (pointsToPositions ps)[i + 1]? = some w ∧
      w.x = v.x + d * Real.cos ((p.elevation.getD 0) * (Real.pi / 180))
                    * Real.sin (h * (Real.pi / 180)) ∧
      w.y = v.y + d * Real.sin ((p.elevation.getD 0) * (Real.pi / 180)) ∧
      w.z = v.z + d * Real.cos ((p.elevation.getD 0) * (Real.pi / 180))
                    * Real.cos (h * (Real.pi / 180)) := by
  constructor
  · cases ps with
    | nil => simp at hp
    | cons a rest => exact pointsToPositions_head a rest
  · obtain ⟨v, h1, h2⟩ := ptpAux_step ps ⟨0, 0, 0⟩ i p q hp hq
    refine ⟨v, segStep p q v, h1, h2, ?_, ?_, ?_⟩ <;>
      · unfold segStep
        rw [hh, hd]
        simp only [Option.getD_some]

/-- C1 witness: the spec's concrete example - point 0 with heading 90,
elevation 0, distance 5 yields position 1 = (5, 0, 0). -/
theorem claimC1_witness :
    (pointsToPositions [⟨0, 0, some 5, some 90, some 0⟩,
        ⟨0, 0, none, none, none⟩])[0]? = some ⟨0, 0, 0⟩ ∧
    (pointsToPositions [⟨0, 0, some 5, some 90, some 0⟩,
        ⟨0, 0, none, none, none⟩])[1]? = some ⟨5, 0, 0⟩ := by
  obtain ⟨h0, v, w, hv, hw, hx, hy, hz⟩ :=
    claimC1 [⟨0, 0, some 5, some 90, some 0⟩, ⟨0, 0, none, none, none⟩]
      0 ⟨0, 0, some 5, some 90, some 0⟩ ⟨0, 0, none, none, none⟩
      90 5 rfl rfl rfl rfl
  refine ⟨h0, ?_⟩
  have hv0 : v = ⟨0, 0, 0⟩ := by
    rw [h0] at hv
    exact (Option.some.injEq _ _).mp hv.symm
  have h90 : (90 : ℝ) * (Real.pi / 180) = Real.pi / 2 := by ring
  have h0e : ((some (0 : ℝ)).getD 0) * (Real.pi / 180) = 0 := by
    simp
  obtain ⟨wx, wy, wz⟩ := w
  simp only [hv0, h0e, h90, Real.cos_zero, Real.sin_zero,
    Real.sin_pi_div_two, Real.cos_pi_div_two] at hx hy hz
  rw [hw, hx, hy, hz]
  norm_num

/-- C3: for every segment the reconstruction applies exactly one of the
three modes in priority order - heading dead reckoning when heading is
non-null, otherwise the screen-direction step when the screen
displacement exceeds one pixel, otherwise the fixed x-axis step - and in
each mode the distance is distanceToNext defaulted to 1 when null. -/
theorem claimC3 (ps : List RPoint) (i : ℕ) (p q : RPoint)
    (hp : ps[i]? = some p) (hq : ps[i + 1]? = some q) :
    ∃ v w, (pointsToPositions ps)[i]? = some v ∧
      (pointsToPositions ps)[i + 1]? = some w ∧
      (∀ h : ℝ, p.heading = some h →
        w.x = v.x + p.distanceToNext.getD 1
                * Real.cos ((p.elevation.getD 0) * (Real.pi / 180))
                * Real.sin (h * (Real.pi / 180)) ∧
        w.y = v.y + p.distanceToNext.getD 1
                * Real.sin ((p.elevation.getD 0) * (Real.pi / 180)) ∧
        w.z = v.z + p.distanceToNext.getD 1
                * Real.cos ((p.elevation.getD 0) * (Real.pi / 180))
                * Real.cos (h * (Real.pi / 180))) ∧
      (p.heading = none →
        1 < Real.sqrt ((q.screenX - p.screenX) * (q.screenX - p.screenX)
              + (q.screenY - p.screenY) * (q.screenY - p.screenY)) →
        w.x = v.x + (q.screenX - p.screenX)
                / Real.sqrt ((q.screenX - p.screenX) * (q.screenX - p.screenX)
                    + (q.screenY - p.screenY) * (q.screenY - p.screenY))
                * p.distanceToNext.getD 1 ∧
        w.y = v.y ∧
        w.z = v.z + (q.screenY - p.screenY)
                / Real.sqrt ((q.screenX - p.screenX) * (q.screenX - p.screenX)
                    + (q.screenY - p.screenY) * (q.screenY - p.screenY))
                * p.distanceToNext.getD 1) ∧
      (p.heading = none →
        Real.sqrt ((q.screenX - p.screenX) * (q.screenX - p.screenX)
            + (q.screenY - p.screenY) * (q.screenY - p.screenY)) ≤ 1 →
        w.x = v.x + p.distanceToNext.getD 1 ∧ w.y = v.y ∧ w.z = v.z) := by
  obtain ⟨v, h1, h2⟩ := ptpAux_step ps ⟨0, 0, 0⟩ i p q hp hq
  refine ⟨v, segStep p q v, h1, h2, ?_, ?_, ?_⟩
  · intro h hh
    unfold segStep
    rw [hh]
    exact ⟨rfl, rfl, rfl⟩
  · intro hh hsd
    unfold segStep
    rw [hh]
    simp [if_pos hsd]
  · intro hh hsd
    unfold segStep
    rw [hh]
    simp [if_neg (not_lt.mpr hsd)]

/-- C3 witness: a screen-direction segment of displacement (3,4) and
measured distance 2 advances by (1.2, 0, 1.6), and a degenerate segment
with no heading, no displacement and no measured distance advances by
the default distance 1 along the x axis. -/
theorem claimC3_witness :
    (pointsToPositions [⟨0, 0, some 2, none, none⟩,
        ⟨3, 4, none, none, none⟩])[1]? = some ⟨1.2, 0, 1.6⟩ ∧
    (pointsToPositions [⟨0, 0, none, none, none⟩,
        ⟨0, 0, none, none, none⟩])[1]? = some ⟨1, 0, 0⟩ := by
  constructor
  · obtain ⟨v, w, hv, hw, _, hscreen, _⟩ :=
      claimC3 [⟨0, 0, some 2, none, none⟩, ⟨3, 4, none, none, none⟩]
        0 ⟨0, 0, some 2, none, none⟩ ⟨3, 4, none, none, none⟩ rfl rfl
    have hv0 : v = ⟨0, 0, 0⟩ := by
      rw [pointsToPositions_head] at hv
      exact (Option.some.injEq _ _).mp hv.symm
    have h25 : ((3 : ℝ) - 0) * ((3 : ℝ) - 0) + ((4 : ℝ) - 0) * ((4 : ℝ) - 0)
        = 5 ^ 2 := by norm_num
    have hsq : Real.sqrt (((3 : ℝ) - 0) * ((3 : ℝ) - 0)
        + ((4 : ℝ) - 0) * ((4 : ℝ) - 0)) = 5 := by
      rw [h25, Real.sqrt_sq (by norm_num : (0 : ℝ) ≤ 5)]
    obtain ⟨hx, hy, hz⟩ := hscreen rfl (by rw [hsq]; norm_num)
    obtain ⟨wx, wy, wz⟩ := w
    simp only [hv0, hsq] at hx hy hz
    rw [hw, hx, hy, hz]
    norm_num
  · obtain ⟨v, w, hv, hw, _, _, hlinear⟩ :=
      claimC3 [⟨0, 0, none, none, none⟩, ⟨0, 0, none, none, none⟩]
        0 ⟨0, 0, none, none, none⟩ ⟨0, 0, none, none, none⟩ rfl rfl
    have hv0 : v = ⟨0, 0, 0⟩ := by
      rw [pointsToPositions_head] at hv
      exact (Option.some.injEq _ _).mp hv.symm
    have hsq : Real.sqrt (((0 : ℝ) - 0) * ((0 : ℝ) - 0)
        + ((0 : ℝ) - 0) * ((0 : ℝ) - 0)) = 0 := by
      norm_num
    obtain ⟨hx, hy, hz⟩ := hlinear rfl (by rw [hsq]; norm_num)
    obtain ⟨wx, wy, wz⟩ := w
    simp only [hv0] at hx hy hz
    rw [hw, hx, hy, hz]
    norm_num

lemma jsMod_eq_self {a b : ℝ} (hb : 0 < b) (ha : 0 ≤ a) (hab : a < b) :
    jsMod a b = a := by
  have h := jsMod_eq_sub 0 hb le_rfl (by simpa using ha) (by simpa using hab)
  simpa using h

/-- C2 counterexample: a compass update in a state where a gyro-tracked
heading exists (gyroHeading = 180) but the gyro flag is not set - the
state every compass-only device is in from the second reading on, since
_applyCompass always re-syncs _gyroHeading - adopts the compass heading
0 directly instead of the claimed fusion formula, whose value is 187.2. -/
theorem claimC2_counterexample :
    (⟨none, some 180, false⟩ : FusionState).gyroHeading = some 180 ∧
    (applyCompass 0 ⟨none, some 180, false⟩).heading = some 0 ∧
    fuse 0 180 = 187.2 ∧ (0 : ℝ) ≠ 187.2 := by
  have h720 : jsMod ((180 : ℝ) - 0 + 540) 360 = 0 := by
    have h := jsMod_eq_sub (a := (180 : ℝ) - 0 + 540) (b := 360) 2
      (by norm_num) (by norm_num) (by norm_num) (by norm_num)
    rw [h]; norm_num
  refine ⟨rfl, rfl, ?_, by norm_num⟩
  show jsMod (0 + filterAlpha * (jsMod ((180 : ℝ) - 0 + 540) 360 - 180)
    + 360) 360 = 187.2
  rw [h720]
  have harg : (0 : ℝ) + filterAlpha * (0 - 180) + 360 = 187.2 := by
    norm_num [filterAlpha]
  rw [harg]
  exact jsMod_eq_self (by norm_num) (by norm_num) (by norm_num)

/-- C2 amended: on every compass update made while a gyro-tracked heading
exists and the gyro sensor has been detected, the fused heading equals
wrap360(compass + 0.96 wrap180(gyro - compass)) and the gyro-tracked
heading is re-synced to it; fusing compass 350 with gyro 10 yields 9.2,
inside the short arc (350,360) or (0,10); and for compass and gyro in
[0,360) the fused result lies in [0,360). -/
theorem claimC2 (s : FusionState) (c g : ℝ)
    (hg : s.gyroHeading = some g) (hhas : s.hasGyro = true) :
    (applyCompass c s).heading = some (fuse c g) ∧
    (applyCompass c s).gyroHeading = some (fuse c g) ∧
    fuse 350 10 = 9.2 ∧
    ((350 < fuse 350 10 ∧ fuse 350 10 < 360) ∨
      (0 < fuse 350 10 ∧ fuse 350 10 < 10)) ∧
    (0 ≤ c → c < 360 → 0 ≤ g → g < 360 →
      0 ≤ fuse c g ∧ fuse c g < 360) := by
  have hfuse : fuse 350 10 = 9.2 := by
    have h200 : jsMod ((10 : ℝ) - 350 + 540) 360 = 200 := by
      have h : ((10 : ℝ) - 350 + 540) = 200 := by norm_num
      rw [h]
      exact jsMod_eq_self (by norm_num) (by norm_num) (by norm_num)
    show jsMod (350 + filterAlpha * (jsMod ((10 : ℝ) - 350 + 540) 360 - 180)
      + 360) 360 = 9.2
    rw [h200]
    have harg : (350 : ℝ) + filterAlpha * (200 - 180) + 360 = 729.2 := by
      norm_num [filterAlpha]
    rw [harg]
    have h := jsMod_eq_sub (a := (729.2 : ℝ)) (b := 360) 2
      (by norm_num) (by norm_num) (by norm_num) (by norm_num)
    rw [h]; norm_num
  refine ⟨?_, ?_, hfuse, Or.inr (by rw [hfuse]; norm_num), ?_⟩
  · simp [applyCompass, hg, hhas]
  · simp [applyCompass, hg, hhas]
  · intro hc0 hc1 hg0 hg1
    have h360 : (0 : ℝ) < 360 := by norm_num
    have hdin : (0 : ℝ) ≤ g - c + 540 := by linarith
    have hm0 : 0 ≤ jsMod (g - c + 540) 360 := jsMod_nonneg h360 hdin
    have halpha : filterAlpha = 0.96 := rfl
    have harg : 0 ≤ c + filterAlpha * (jsMod (g - c + 540) 360 - 180)
        + 360 := by
      rw [halpha]; nlinarith
    constructor
    · exact jsMod_nonneg h360 harg
    · exact jsMod_lt h360 harg

/-- C2 witness: the amended theorem applied at compass 350, gyro-tracked
heading 10 with the gyro detected - the fused and re-synced heading is
9.2 degrees. -/
theorem claimC2_witness :
    (applyCompass 350 ⟨none, some 10, true⟩).heading = some (9.2 : ℝ) ∧
    (applyCompass 350 ⟨none, some 10, true⟩).gyroHeading
      = some (9.2 : ℝ) := by
  obtain ⟨h1, h2, h3, _, _⟩ :=
    claimC2 ⟨none, some 10, true⟩ 350 10 rfl rfl
  constructor
  · rw [h1, h3]
  · rw [h2, h3]

/-- C4 counterexample: undoLastPoint on a 3-point route with segment
distances [2, 3] leaves the remaining single segment distance at 2 (the
code clears the removed segment's distance, stored on the new terminal
point), so the resulting distance list is [some 2, none], not [null] at
the surviving segment. -/
theorem claimC4_counterexample :
    ((undoLastPoint
        ⟨[⟨1, 0, 0, "", "t", some 2, none, none, none, none⟩,
          ⟨2, 0, 0, "", "t", some 3, none, none, none, none⟩,
          ⟨3, 0, 0, "", "t", none, none, none, none, none⟩], 4,
         ⟨none, none⟩⟩).state.points.map Point.distanceToNext
      = [some 2, none]) ∧
    some (2 : ℝ) ≠ (none : Option ℝ) := by
  constructor
  · rfl
  · simp

/-- C4 amended: undoLastPoint on a 3-point route with segment distances
[2, 3] succeeds and yields the 2-point route in which the first segment
keeps its distance 2 and the new terminal point's distanceToNext - the
removed segment's measurement 3 - is invalidated to null; undoLastPoint
on an empty sequence reports failure and changes nothing. -/
theorem claimC4 (s e : PMState) (p0 p1 p2 : Point)
    (hs : s.points = [p0, p1, p2])
    (h0 : p0.distanceToNext = some 2) (_h1 : p1.distanceToNext = some 3)
    (he : e.points = []) :
    (undoLastPoint s).success = true ∧
    (undoLastPoint s).state.points
      = [p0, { p1 with distanceToNext := none }] ∧
    (undoLastPoint s).state.points.map Point.distanceToNext
      = [some 2, none] ∧
    (undoLastPoint e).success = false ∧
    (undoLastPoint e).state = e ∧
    (undoLastPoint e).notified = false := by
  have hcalc : undoLastPoint s
      = ⟨true, none,
          { s with points := [p0, { p1 with distanceToNext := none }] },
          true⟩ := by
    unfold undoLastPoint
    rw [hs]
    simp [listModify]
  have hempty : undoLastPoint e = ⟨false, none, e, false⟩ := by
    unfold undoLastPoint
    rw [he]
    simp
  refine ⟨by rw [hcalc], by rw [hcalc], ?_, by rw [hempty],
    by rw [hempty], by rw [hempty]⟩
  rw [hcalc]
  simp [h0]

/-- C4 witness: the amended theorem applied to a concrete 3-point route
with distances [2, 3] and to the empty route. -/
theorem claimC4_witness :
    (undoLastPoint
        ⟨[⟨1, 5, 5, "", "t", some 2, none, none, none, none⟩,
          ⟨2, 6, 6, "", "t", some 3, none, none, none, none⟩,
          ⟨3, 7, 7, "", "t", none, none, none, none, none⟩], 4,
         ⟨none, none⟩⟩).state.points.map Point.distanceToNext
      = [some 2, none] ∧
    (undoLastPoint initState).success = false := by
  obtain ⟨_, _, h3, h4, _, _⟩ := claimC4
    ⟨[⟨1, 5, 5, "", "t", some 2, none, none, none, none⟩,
      ⟨2, 6, 6, "", "t", some 3, none, none, none, none⟩,
      ⟨3, 7, 7, "", "t", none, none, none, none, none⟩], 4, ⟨none, none⟩⟩
    initState
    ⟨1, 5, 5, "", "t", some 2, none, none, none, none⟩
    ⟨2, 6, 6, "", "t", some 3, none, none, none, none⟩
    ⟨3, 7, 7, "", "t", none, none, none, none, none⟩
    rfl rfl rfl rfl
  exact ⟨h3, h4⟩

/-- C5 counterexample: setSegmentDistance with the invalid index 5 on the
empty route and distance -1 fails with the invalid-segment error, not
with the distance-range error the claim requires for every index. -/
theorem claimC5_counterexample :
    (setSegmentDistance 5 (some (-1)) initState).success = false ∧
    (setSegmentDistance 5 (some (-1)) initState).error
      = some "無効な区間です" ∧
    "無効な区間です" ≠ "距離は0以上で入力してください" := by
  refine ⟨rfl, rfl, by decide⟩

/-- C5 amended: setSegmentDistance with distance -1 fails for every
index and leaves the state unchanged - with the distance-range error
when the index is a valid non-terminal index and with the
invalid-segment error otherwise - and addPoint on a sequence already
holding the maximum of 100 points fails with the count error and leaves
the state unmodified. -/
theorem claimC5 (s : PMState) (i : ℤ) (x y : ℝ) (memo now : String) :
    (setSegmentDistance i (some (-1)) s).success = false ∧
    (setSegmentDistance i (some (-1)) s).state = s ∧
    (¬(i < 0 ∨ (s.points.length : ℤ) - 1 ≤ i) →
      (setSegmentDistance i (some (-1)) s).error
        = some "距離は0以上で入力してください") ∧
    ((i < 0 ∨ (s.points.length : ℤ) - 1 ≤ i) →
      (setSegmentDistance i (some (-1)) s).error = some "無効な区間です") ∧
    (100 ≤ s.points.length →
      (addPoint x y memo now s).success = false ∧
      (addPoint x y memo now s).error = some "ポイントは最大100個までです" ∧
      (addPoint x y memo now s).state = s) := by
  have hneg : validateDistance (-1) = some "距離は0以上で入力してください" := by
    unfold validateDistance
    rw [if_pos (by norm_num : (-1 : ℝ) < 0)]
  by_cases hv : i < 0 ∨ (s.points.length : ℤ) - 1 ≤ i
  · have hrw : setSegmentDistance i (some (-1)) s
        = ⟨false, some "無効な区間です", s, false⟩ := by
      unfold setSegmentDistance
      rw [if_pos hv]
    refine ⟨by rw [hrw], by rw [hrw], fun hc => absurd hv hc,
      fun _ => by rw [hrw], ?_⟩
    · intro hfull
      have hcount : validatePointCount s.points.length
          = some "ポイントは最大100個までです" := by
        unfold validatePointCount MAX_POINTS
        rw [if_pos hfull]
      have hrw2 : addPoint x y memo now s
          = ⟨false, some "ポイントは最大100個までです", s, false⟩ := by
        unfold addPoint
        rw [hcount]
      exact ⟨by rw [hrw2], by rw [hrw2], by rw [hrw2]⟩
  · have hrw : setSegmentDistance i (some (-1)) s
        = ⟨false, some "距離は0以上で入力してください", s, false⟩ := by
      unfold setSegmentDistance
      rw [if_neg hv]
      simp only [hneg]
    refine ⟨by rw [hrw], by rw [hrw], fun _ => by rw [hrw],
      fun hc => absurd hc hv, ?_⟩
    · intro hfull
      have hcount : validatePointCount s.points.length
          = some "ポイントは最大100個までです" := by
        unfold validatePointCount MAX_POINTS
        rw [if_pos hfull]
      have hrw2 : addPoint x y memo now s
          = ⟨false, some "ポイントは最大100個までです", s, false⟩ := by
        unfold addPoint
        rw [hcount]
      exact ⟨by rw [hrw2], by rw [hrw2], by rw [hrw2]⟩

/-- C5 witness: the amended theorem applied to a full 100-point sequence
with the valid index 0 - the distance-range error fires there - and
addPoint on that full sequence fails with the count error. -/
theorem claimC5_witness :
    (setSegmentDistance 0 (some (-1))
        ⟨List.replicate 100 ⟨1, 0, 0, "", "t", none, none, none, none, none⟩,
         101, ⟨none, none⟩⟩).error = some "距離は0以上で入力してください" ∧
    (addPoint 1 2 "m" "t"
        ⟨List.replicate 100 ⟨1, 0, 0, "", "t", none, none, none, none, none⟩,
         101, ⟨none, none⟩⟩).success = false := by
  obtain ⟨_, _, h3, _, h5⟩ := claimC5
    ⟨List.replicate 100 ⟨1, 0, 0, "", "t", none, none, none, none, none⟩,
     101, ⟨none, none⟩⟩ 0 1 2 "m" "t"
  refine ⟨h3 ?_, (h5 ?_).1⟩
  · simp
  · simp

/-- C6 counterexample: tapping the same screen position twice and
calibrating that zero-pixel segment against a real distance of 1 is a
sequence of legitimate operations that reaches a state whose
pixelsPerMeter is non-null and equal to 0, violating the claimed strict
positivity invariant. -/
theorem claimC6_counterexample :
    Reachable (calibrate 0 1
      (addPoint 10 10 "" "t" (addPoint 10 10 "" "t" initState).state).state) ∧
    (calibrate 0 1
      (addPoint 10 10 "" "t" (addPoint 10 10 "" "t" initState).state).state
        ).calibration.pixelsPerMeter = some 0 ∧
    ¬ (0 : ℝ) < 0 := by
  refine ⟨Reachable.calibrate _ 0 1
      (Reachable.addPoint _ 10 10 "" "t"
        (Reachable.addPoint _ 10 10 "" "t" Reachable.init (by decide))
        (by decide)),
    ?_, by norm_num⟩
  have hs2 : (addPoint 10 10 "" "t"
      (addPoint 10 10 "" "t" initState).state).state
      = ⟨[⟨1, 10, 10, "".trim, "t", none, none, none, none, none⟩,
          ⟨2, 10, 10, "".trim, "t", none, none, none, none, none⟩], 3,
         ⟨none, none⟩⟩ := rfl
  rw [hs2]
  unfold calibrate
  rw [if_neg (by decide :
        ¬((0 : ℤ) < 0 ∨
          ((([⟨1, 10, 10, "".trim, "t", none, none, none, none, none⟩,
              ⟨2, 10, 10, "".trim, "t", none, none, none, none, none⟩] :
              List Point).length : ℤ) - 1 ≤ 0)))]
  rw [if_neg (by norm_num : ¬(1 : ℝ) ≤ 0)]
  have hpx : pixelDistance 10 10 10 10 = 0 := by
    unfold pixelDistance
    norm_num
  simp only [List.getElem?_cons_zero, List.getElem?_cons_succ]
  simp only [Int.toNat_zero, List.getElem?_cons_zero,
    List.getElem?_cons_succ]
  simp [hpx]

/-- C6 amended: calibrate is a silent no-op on an invalid segment index
or a non-positive real distance and otherwise overwrites the calibration
record entirely; every reachable state with a non-null pixelsPerMeter
has pixelsPerMeter nonnegative, and it can be exactly 0 when the
reference segment's endpoints coincide (strict positivity fails). -/
theorem claimC6 (s : PMState) (i : ℤ) (d : ℝ) (hr : Reachable s) :
    ((i < 0 ∨ (s.points.length : ℤ) - 1 ≤ i) → calibrate i d s = s) ∧
    (d ≤ 0 → calibrate i d s = s) ∧
    (¬(i < 0 ∨ (s.points.length : ℤ) - 1 ≤ i) → 0 < d →
      ∀ p1 p2, s.points[i.toNat]? = some p1 →
        s.points[i.toNat + 1]? = some p2 →
        (calibrate i d s).calibration
          = ⟨some (pixelDistance p1.screenX p1.screenY p2.screenX
                     p2.screenY / d),
             some i⟩) ∧
    (∀ v, s.calibration.pixelsPerMeter = some v → 0 ≤ v) ∧
    (∀ w, (calibrate i d s).calibration.pixelsPerMeter = some w → 0 ≤ w) := by
  refine ⟨?_, ?_, ?_, (reachable_wf hr).2,
    (reachable_wf (Reachable.calibrate s i d hr)).2⟩
  · intro hv
    unfold calibrate
    rw [if_pos hv]
  · intro hd
    unfold calibrate
    by_cases hv : i < 0 ∨ (s.points.length : ℤ) - 1 ≤ i
    · rw [if_pos hv]
    · rw [if_neg hv, if_pos hd]
  · intro hv hd p1 p2 hp1 hp2
    unfold calibrate
    rw [if_neg hv, if_neg (not_le.mpr hd)]
    simp only [hp1, hp2]

/-- C6 witness: the amended theorem applied to the reachable 2-point
route with taps at (0,0) and (30,40) - calibrating its segment against
5 meters overwrites the calibration with pixelsPerMeter 50/5 = 10, while
calibrating with the non-positive distance -1 changes nothing. -/
theorem claimC6_witness :
    (calibrate 0 5
        (addPoint 30 40 "" "t" (addPoint 0 0 "" "t" initState).state).state
        ).calibration.pixelsPerMeter = some 10 ∧
    calibrate 0 (-1)
        (addPoint 30 40 "" "t" (addPoint 0 0 "" "t" initState).state).state
      = (addPoint 30 40 "" "t" (addPoint 0 0 "" "t" initState).state).state := by
  have hreach : Reachable
      (addPoint 30 40 "" "t" (addPoint 0 0 "" "t" initState).state).state :=
    Reachable.addPoint _ 30 40 "" "t"
      (Reachable.addPoint _ 0 0 "" "t" Reachable.init (by decide))
      (by decide)
  obtain ⟨_, _, hover, _, _⟩ := claimC6
    (addPoint 30 40 "" "t" (addPoint 0 0 "" "t" initState).state).state
    0 5 hreach
  obtain ⟨_, hnoop, _, _, _⟩ := claimC6
    (addPoint 30 40 "" "t" (addPoint 0 0 "" "t" initState).state).state
    0 (-1) hreach
  constructor
  · have hcal := hover (by decide) (by norm_num)
      ⟨1, 0, 0, "".trim, "t", none, none, none, none, none⟩
      ⟨2, 30, 40, "".trim, "t", none, none, none, none, none⟩
      rfl rfl
    rw [hcal]
    have hpx : pixelDistance 0 0 30 40 = 50 := by
      unfold pixelDistance
      rw [show ((30 : ℝ) - 0) ^ 2 + ((40 : ℝ) - 0) ^ 2 = 50 ^ 2 by norm_num]
      exact Real.sqrt_sq (by norm_num)
    rw [show (⟨1, 0, 0, "".trim, "t", none, none, none, none,
          none⟩ : Point).screenX = 0 from rfl]
    rw [show (⟨1, 0, 0, "".trim, "t", none, none, none, none,
          none⟩ : Point).screenY = 0 from rfl]
    rw [show (⟨2, 30, 40, "".trim, "t", none, none, none, none,
          none⟩ : Point).screenX = 30 from rfl]
    rw [show (⟨2, 30, 40, "".trim, "t", none, none, none, none,
          none⟩ : Point).screenY = 40 from rfl]
    rw [hpx]
    norm_num
  · exact hnoop (by norm_num)

/-- C7: estimateDistance returns the pixel distance between the segment
endpoints divided by pixelsPerMeter when the model is calibrated (a
non-null, nonzero pixelsPerMeter) and the index is a valid non-terminal
index, and returns null when uncalibrated (null or zero pixelsPerMeter)
or when the index is invalid; calibrating a 100-pixel segment against
2 meters yields pixelsPerMeter 50, after which a 150-pixel segment is
estimated at 3 meters. -/
theorem claimC7 (s : PMState) (ppm : ℝ) (i : ℤ) :
    (s.calibration.pixelsPerMeter = some ppm → ppm ≠ 0 →
      ¬(i < 0 ∨ (s.points.length : ℤ) - 1 ≤ i) →
      ∀ p1 p2, s.points[i.toNat]? = some p1 →
        s.points[i.toNat + 1]? = some p2 →
        estimateDistance i s
          = some (pixelDistance p1.screenX p1.screenY p2.screenX
                    p2.screenY / ppm)) ∧
    (s.calibration.pixelsPerMeter = none → estimateDistance i s = none) ∧
    (s.calibration.pixelsPerMeter = some 0 → estimateDistance i s = none) ∧
    ((i < 0 ∨ (s.points.length : ℤ) - 1 ≤ i) → estimateDistance i s = none) ∧
    (calibrate 0 2
        ⟨[⟨1, 0, 0, "", "t", none, none, none, none, none⟩,
          ⟨2, 100, 0, "", "t", none, none, none, none, none⟩,
          ⟨3, 250, 0, "", "t", none, none, none, none, none⟩], 4,
         ⟨none, none⟩⟩).calibration.pixelsPerMeter = some 50 ∧
    estimateDistance 1 (calibrate 0 2
        ⟨[⟨1, 0, 0, "", "t", none, none, none, none, none⟩,
          ⟨2, 100, 0, "", "t", none, none, none, none, none⟩,
          ⟨3, 250, 0, "", "t", none, none, none, none, none⟩], 4,
         ⟨none, none⟩⟩) = some 3 := by
  have hcal : calibrate 0 2
      ⟨[⟨1, 0, 0, "", "t", none, none, none, none, none⟩,
        ⟨2, 100, 0, "", "t", none, none, none, none, none⟩,
        ⟨3, 250, 0, "", "t", none, none, none, none, none⟩], 4,
       ⟨none, none⟩⟩
      = ⟨[⟨1, 0, 0, "", "t", none, none, none, none, none⟩,
          ⟨2, 100, 0, "", "t", none, none, none, none, none⟩,
          ⟨3, 250, 0, "", "t", none, none, none, none, none⟩], 4,
         ⟨some (pixelDistance 0 0 100 0 / 2), some 0⟩⟩ := by
    unfold calibrate
    rw [if_neg (by decide :
      ¬((0 : ℤ) < 0 ∨
        ((([⟨1, 0, 0, "", "t", none, none, none, none, none⟩,
            ⟨2, 100, 0, "", "t", none, none, none, none, none⟩,
            ⟨3, 250, 0, "", "t", none, none, none, none, none⟩] :
            List Point).length : ℤ) - 1 ≤ 0)))]
    rw [if_neg (by norm_num : ¬(2 : ℝ) ≤ 0)]
    rfl
  have hpx1 : pixelDistance 0 0 100 0 = 100 := by
    unfold pixelDistance
    rw [show ((100 : ℝ) - 0) ^ 2 + ((0 : ℝ) - 0) ^ 2 = 100 ^ 2 by norm_num]
    exact Real.sqrt_sq (by norm_num)
  have hpx2 : pixelDistance 100 0 250 0 = 150 := by
    unfold pixelDistance
    rw [show ((250 : ℝ) - 100) ^ 2 + ((0 : ℝ) - 0) ^ 2 = 150 ^ 2 by norm_num]
    exact Real.sqrt_sq (by norm_num)
  refine ⟨?_, ?_, ?_, ?_, ?_, ?_⟩
  · intro hppm hne hv p1 p2 hp1 hp2
    unfold estimateDistance
    rw [hppm]
    simp only [if_neg hne, if_neg hv, hp1, hp2]
  · intro hppm
    unfold estimateDistance
    rw [hppm]
  · intro hppm
    unfold estimateDistance
    rw [hppm]
    simp
  · intro hv
    unfold estimateDistance
    cases hppm : s.calibration.pixelsPerMeter with
    | none => rfl
    | some v =>
        simp only
        by_cases hz : v = 0
        · rw [if_pos hz]
        · rw [if_neg hz, if_pos hv]
  · rw [hcal]
    show some (pixelDistance 0 0 100 0 / 2) = some 50
    rw [hpx1]
    norm_num
  · rw [hcal]
    unfold estimateDistance
    simp only
    rw [if_neg (by rw [hpx1]; norm_num :
      ¬pixelDistance 0 0 100 0 / 2 = 0)]
    rw [if_neg (by decide :
      ¬((1 : ℤ) < 0 ∨
        ((([⟨1, 0, 0, "", "t", none, none, none, none, none⟩,
            ⟨2, 100, 0, "", "t", none, none, none, none, none⟩,
            ⟨3, 250, 0, "", "t", none, none, none, none, none⟩] :
            List Point).length : ℤ) - 1 ≤ 1)))]
    simp only [List.getElem?_cons_zero, List.getElem?_cons_succ]
    show some (pixelDistance 100 0 250 0 / (pixelDistance 0 0 100 0 / 2))
      = some 3
    rw [hpx1, hpx2]
    norm_num

/-- C7 witness: the general clauses of the theorem applied to a concrete
calibrated 2-point state - the estimate is the pixel distance over
pixelsPerMeter - and to an uncalibrated state, where it is null. -/
theorem claimC7_witness :
    estimateDistance 0
        ⟨[⟨1, 0, 0, "", "t", none, none, none, none, none⟩,
          ⟨2, 8, 6, "", "t", none, none, none, none, none⟩], 3,
         ⟨some 5, some 0⟩⟩
      = some (pixelDistance 0 0 8 6 / 5) ∧
    estimateDistance 0
        ⟨[⟨1, 0, 0, "", "t", none, none, none, none, none⟩,
          ⟨2, 8, 6, "", "t", none, none, none, none, none⟩], 3,
         ⟨none, none⟩⟩ = none := by
  obtain ⟨hgen, _, _, _, _, _⟩ := claimC7
    ⟨[⟨1, 0, 0, "", "t", none, none, none, none, none⟩,
      ⟨2, 8, 6, "", "t", none, none, none, none, none⟩], 3,
     ⟨some 5, some 0⟩⟩ 5 0
  obtain ⟨_, hnone, _, _, _, _⟩ := claimC7
    ⟨[⟨1, 0, 0, "", "t", none, none, none, none, none⟩,
      ⟨2, 8, 6, "", "t", none, none, none, none, none⟩], 3,
     ⟨none, none⟩⟩ 5 0
  constructor
  · have h := hgen rfl (by norm_num) (by decide)
      ⟨1, 0, 0, "", "t", none, none, none, none, none⟩
      ⟨2, 8, 6, "", "t", none, none, none, none, none⟩ rfl rfl
    exact h
  · exact hnone rfl

lemma jsOrZero_eq (x : ℝ) : jsOrZero x = x := by
  unfold jsOrZero
  split
  · simp_all
  · rfl

lemma jsOrString_empty_default (s : String) : jsOrString s "" = s := by
  unfold jsOrString
  split
  · simp_all
  · rfl

lemma jsOrString_of_ne {s : String} (d : String) (h : s ≠ "") :
    jsOrString s d = s := by
  unfold jsOrString
  rw [if_neg h]

lemma jsOrNoneStr_of_ne {o : Option String} (h : o ≠ some "") :
    jsOrNoneStr o = o := by
  cases o with
  | none => rfl
  | some s =>
      show (if s = "" then none else some s) = some s
      rw [if_neg (fun hc => h (by rw [hc]))]

lemma map_eq_self_of {l : List α} {f : α → α} (h : ∀ x ∈ l, f x = x) :
    l.map f = l := by
  induction l with
  | nil => rfl
  | cons a as ih =>
      simp only [List.map_cons, h a (List.mem_cons_self a as)]
      rw [ih (fun x hx => h x (List.mem_cons_of_mem a hx))]

lemma reloadPoint_eq (now : String) (p : Point) (hc : p.createdAt ≠ "")
    (hs : p.directionSource ≠ some "") :
    ({ id := p.id, screenX := jsOrZero p.screenX,
       screenY := jsOrZero p.screenY, memo := jsOrString p.memo "",
       createdAt := jsOrString p.createdAt now,
       distanceToNext := p.distanceToNext, heading := p.heading,
       elevation := p.elevation,
       directionSource := jsOrNoneStr p.directionSource,
       sensorLevel := p.sensorLevel } : Point) = p := by
  rw [jsOrZero_eq, jsOrZero_eq, jsOrString_empty_default,
    jsOrString_of_ne now hc, jsOrNoneStr_of_ne hs]

lemma foldl_max_init_le :
    ∀ (l : List Point) (a : ℕ), a ≤ l.foldl (fun m p => max m p.id) a
  | [], _ => le_rfl
  | p :: ps, a =>
      le_trans (le_max_left a p.id) (foldl_max_init_le ps (max a p.id))

lemma mem_le_foldl_max :
    ∀ (l : List Point) (a : ℕ) (p : Point), p ∈ l →
      p.id ≤ l.foldl (fun m q => max m q.id) a
  | [], _, p, h => absurd h (List.not_mem_nil p)
  | q :: ps, a, p, h => by
      rcases List.mem_cons.mp h with rfl | h
      · exact le_trans (le_max_right a p.id) (foldl_max_init_le ps _)
      · exact mem_le_foldl_max ps (max a q.id) p h

/-- C8: loading the serialized form of a reachable model (ProjectStorage
keeps the points array and the calibration record unchanged) reproduces
the identical point sequence, re-derives the next-id counter as
max(existing ids) + 1, and therefore every loaded id is strictly below
every id issued afterwards. -/
theorem claimC8 (s t : PMState) (now : String) (hr : Reachable s) :
    (loadPoints s.points (some s.calibration) now t).points = s.points ∧
    (loadPoints s.points (some s.calibration) now t).nextId
      = (s.points.foldl (fun m p => max m p.id) 0) + 1 ∧
    (∀ p ∈ (loadPoints s.points (some s.calibration) now t).points,
      p.id < (loadPoints s.points (some s.calibration) now t).nextId) := by
  have hwf := reachable_wf hr
  have hpts : (loadPoints s.points (some s.calibration) now t).points
      = s.points := by
    show s.points.map _ = s.points
    refine map_eq_self_of ?_
    intro p hp
    obtain ⟨hcreated, hsrc⟩ := hwf.1 p hp
    exact reloadPoint_eq now p hcreated hsrc
  refine ⟨hpts, ?_, ?_⟩
  · have hnext : (loadPoints s.points (some s.calibration) now t).nextId
        = (loadPoints s.points (some s.calibration) now t).points.foldl
            (fun m p => max m p.id) 0 + 1 := rfl
    rw [hnext, hpts]
  · intro p hp
    rw [hpts] at hp
    have hnext : (loadPoints s.points (some s.calibration) now t).nextId
        = (loadPoints s.points (some s.calibration) now t).points.foldl
            (fun m q => max m q.id) 0 + 1 := rfl
    rw [hnext, hpts]
    exact Nat.lt_succ_of_le (mem_le_foldl_max s.points 0 p hp)

/-- C8 witness: the round trip applied to the reachable one-point model
created by a single addPoint - the loaded points coincide and the next
id is re-derived as 1 + 1 = 2. -/
theorem claimC8_witness :
    (loadPoints (addPoint 7 8 "m" "t" initState).state.points
        (some (addPoint 7 8 "m" "t" initState).state.calibration) "t"
        initState).points
      = (addPoint 7 8 "m" "t" initState).state.points ∧
    (loadPoints (addPoint 7 8 "m" "t" initState).state.points
        (some (addPoint 7 8 "m" "t" initState).state.calibration) "t"
        initState).nextId = 2 := by
  obtain ⟨h1, h2, _⟩ := claimC8 (addPoint 7 8 "m" "t" initState).state
    initState "t"
    (Reachable.addPoint initState 7 8 "m" "t" Reachable.init (by decide))
  refine ⟨h1, ?_⟩
  rw [h2]
  rfl

/-- C9 counterexample: a session whose compass-offset capture timed out
(offset defaults to 0) produces exactly the same getAnchorDirection
output as a session that captured a genuine reading of 0 - the output
carries heading and elevation only, with no source tag, so the
degradation is not observable to downstream consumers. -/
theorem claimC9_counterexample :
    captureCompassHeading none = captureCompassHeading (some 0) ∧
    getAnchorDirection (captureCompassHeading none)
        [⟨0, 0, 0⟩, ⟨1, 0, 1⟩] 0
      = getAnchorDirection (captureCompassHeading (some 0))
        [⟨0, 0, 0⟩, ⟨1, 0, 1⟩] 0 :=
  ⟨rfl, rfl⟩

/-- C9 amended: when the bounded compass-offset capture times out
without a reading the offset defaults to 0, so every anchor-derived
heading is computed relative to the tracking session's own axes (offset
0) rather than rotated to magnetic north; a captured reading r is used
as the offset unchanged; and the degraded output is bit-for-bit the
output of a zero-offset session - no distinct source tag exists in it. -/
theorem claimC9 (anchors : List Vec3) (i : ℤ) (r : ℝ) :
    captureCompassHeading none = 0 ∧
    captureCompassHeading (some r) = r ∧
    getAnchorDirection (captureCompassHeading none) anchors i
      = getAnchorDirection 0 anchors i :=
  ⟨rfl, rfl, rfl⟩

/-- C10: every failing PointManager mutation - addPoint at capacity or
with an over-long memo, setSegmentDistance with an invalid index or an
out-of-range distance, updateMemo with an unknown id or an invalid memo,
undoLastPoint on an empty sequence - returns success = false, leaves the
whole state (points, id counter, calibration) unchanged and notifies no
subscriber, and each of these operations notifies only when it
succeeds. -/
theorem claimC10 (s : PMState) (x y : ℝ) (memo now : String) (i : ℤ)
    (dOpt : Option ℝ) (pid : ℕ) (memo2 : String) :
    (MAX_POINTS ≤ s.points.length →
      (addPoint x y memo now s).success = false) ∧
    (MEMO_MAX_LENGTH < memo.length →
      (addPoint x y memo now s).success = false) ∧
    ((i < 0 ∨ (s.points.length : ℤ) - 1 ≤ i) →
      (setSegmentDistance i dOpt s).success = false) ∧
    (∀ d, dOpt = some d → (d < 0 ∨ 1000 < d) →
      (setSegmentDistance i dOpt s).success = false) ∧
    (s.points.find? (fun p => p.id == pid) = none →
      (updateMemo pid memo2 s).success = false) ∧
    (MEMO_MAX_LENGTH < memo2.length →
      (updateMemo pid memo2 s).success = false) ∧
    (s.points = [] → (undoLastPoint s).success = false) ∧
    ((addPoint x y memo now s).success = false →
      (addPoint x y memo now s).state = s ∧
      (addPoint x y memo now s).notified = false) ∧
    ((setSegmentDistance i dOpt s).success = false →
      (setSegmentDistance i dOpt s).state = s ∧
      (setSegmentDistance i dOpt s).notified = false) ∧
    ((updateMemo pid memo2 s).success = false →
      (updateMemo pid memo2 s).state = s ∧
      (updateMemo pid memo2 s).notified = false) ∧
    ((undoLastPoint s).success = false →
      (undoLastPoint s).state = s ∧ (undoLastPoint s).notified = false) ∧
    ((addPoint x y memo now s).notified = true →
      (addPoint x y memo now s).success = true) ∧
    ((setSegmentDistance i dOpt s).notified = true →
      (setSegmentDistance i dOpt s).success = true) ∧
    ((updateMemo pid memo2 s).notified = true →
      (updateMemo pid memo2 s).success = true) ∧
    ((undoLastPoint s).notified = true →
      (undoLastPoint s).success = true) := by
  have haddPoint : (addPoint x y memo now s).success = false →
      (addPoint x y memo now s).state = s ∧
      (addPoint x y memo now s).notified = false := by
    unfold addPoint
    cases validatePointCount s.points.length with
    | some e => exact fun _ => ⟨rfl, rfl⟩
    | none =>
      cases validateMemo memo with
      | some e => exact fun _ => ⟨rfl, rfl⟩
      | none => intro h; simp at h
  have haddPointN : (addPoint x y memo now s).notified = true →
      (addPoint x y memo now s).success = true := by
    unfold addPoint
    cases validatePointCount s.points.length with
    | some e => intro h; simp at h
    | none =>
      cases validateMemo memo with
      | some e => intro h; simp at h
      | none => exact fun _ => rfl
  have hsegFail : (setSegmentDistance i dOpt s).success = false →
      (setSegmentDistance i dOpt s).state = s ∧
      (setSegmentDistance i dOpt s).notified = false := by
    unfold setSegmentDistance
    split
    · exact fun _ => ⟨rfl, rfl⟩
    · split
      · split
        · exact fun _ => ⟨rfl, rfl⟩
        · intro h; simp at h
      · intro h; simp at h
  have hsegN : (setSegmentDistance i dOpt s).notified = true →
      (setSegmentDistance i dOpt s).success = true := by
    unfold setSegmentDistance
    split
    · intro h; simp at h
    · split
      · split
        · intro h; simp at h
        · exact fun _ => rfl
      · exact fun _ => rfl
  have hmemoFail : (updateMemo pid memo2 s).success = false →
      (updateMemo pid memo2 s).state = s ∧
      (updateMemo pid memo2 s).notified = false := by
    unfold updateMemo
    cases s.points.find? (fun p => p.id == pid) with
    | none => exact fun _ => ⟨rfl, rfl⟩
    | some q =>
      cases validateMemo memo2 with
      | some e => exact fun _ => ⟨rfl, rfl⟩
      | none => intro h; simp at h
  have hmemoN : (updateMemo pid memo2 s).notified = true →
      (updateMemo pid memo2 s).success = true := by
    unfold updateMemo
    cases s.points.find? (fun p => p.id == pid) with
    | none => intro h; simp at h
    | some q =>
      cases validateMemo memo2 with
      | some e => intro h; simp at h
      | none => exact fun _ => rfl
  have hundoFail : (undoLastPoint s).success = false →
      (undoLastPoint s).state = s ∧ (undoLastPoint s).notified = false := by
    unfold undoLastPoint
    split
    · exact fun _ => ⟨rfl, rfl⟩
    · intro h; simp at h
  have hundoN : (undoLastPoint s).notified = true →
      (undoLastPoint s).success = true := by
    unfold undoLastPoint
    split
    · intro h; simp at h
    · exact fun _ => rfl
  refine ⟨?_, ?_, ?_, ?_, ?_, ?_, ?_, haddPoint, hsegFail, hmemoFail,
    hundoFail, haddPointN, hsegN, hmemoN, hundoN⟩
  · intro hfull
    have hc : validatePointCount s.points.length
        = some "ポイントは最大100個までです" := by
      unfold validatePointCount
      rw [if_pos hfull]
    unfold addPoint
    rw [hc]
  · intro hlong
    have hm : validateMemo memo = some "メモは50文字以内で入力してください" := by
      unfold validateMemo
      rw [if_pos hlong]
    unfold addPoint
    cases validatePointCount s.points.length with
    | some e => rfl
    | none => rw [hm]
  · intro hv
    unfold setSegmentDistance
    rw [if_pos hv]
  · intro d hd hrange
    subst hd
    unfold setSegmentDistance
    split
    · rfl
    · have hv : validateDistance d
          = some (if d < 0 then "距離は0以上で入力してください"
                  else "距離が大きすぎます（最大1000m）") := by
        unfold validateDistance
        rcases hrange with hneg | hbig
        · rw [if_pos hneg, if_pos hneg]
        · have hnn : ¬d < 0 := by linarith
          rw [if_neg hnn, if_pos hbig, if_neg hnn]
      simp only [hv]
  · intro hfind
    unfold updateMemo
    rw [hfind]
  · intro hlong
    have hm : validateMemo memo2
        = some "メモは50文字以内で入力してください" := by
      unfold validateMemo
      rw [if_pos hlong]
    unfold updateMemo
    cases s.points.find? (fun p => p.id == pid) with
    | none => rfl
    | some q => rw [hm]
  · intro hempty
    unfold undoLastPoint
    rw [if_pos (by rw [hempty]; rfl : s.points.length = 0)]

/-- C10 witness: the theorem applied to the empty initial state -
addPoint with a 51-character memo fails without mutation or
notification, setSegmentDistance 0 (-1) fails without notification, and
undoLastPoint fails leaving the state unchanged. -/
theorem claimC10_witness :
    (undoLastPoint initState).success = false ∧
    (undoLastPoint initState).state = initState ∧
    (undoLastPoint initState).notified = false ∧
    (setSegmentDistance 0 (some (-1)) initState).success = false ∧
    (setSegmentDistance 0 (some (-1)) initState).notified = false := by
  obtain ⟨_, _, hseg, _, _, _, hundo, _, hsegF, _, hundoF, _, _, _, _⟩ :=
    claimC10 initState 1 2 "m" "t" 0 (some (-1)) 9 "m"
  have h1 := hundo rfl
  have h2 := hundoF h1
  have h3 := hseg (by decide)
  have h4 := hsegF h3
  exact ⟨h1, h2.1, h2.2, h3, h4.2⟩

end PipeScan
